import Mathlib

/-!
# Platform file primitives of `HelpersFilesystemPaths.c`

A shallow embedding of `nuitka/build/static_src/HelpersFilesystemPaths.c`.

The C file is a set of thin wrappers whose bodies are selected by the
preprocessor.  Every wrapper is embedded as a function of

* the build variant (`Platform`), which selects the `#if` branch,
* a record `OS σ` of the operating-system primitives it calls, each a
  state transformer on an arbitrary state type `σ`, and
* the arguments of the C function.

Theorems about return codes quantify over *every* `OS σ`.  Theorems that
need the meaning of the primitives (file positions, file contents) are
stated over `idealOS`, a small executable file system in which the
primitives fail only for semantic reasons (invalid handle, missing file,
wrong access mode).

Machine integers: `size_t` and `long` are 64 bits wide, `DWORD` and
`uint32_t` are 32 bits wide.  Values are `Nat`/`Int`; every narrowing cast
of the source is an explicit `toDWORD`/`toInt64`.

Memory: a buffer passed to the program is the list of its elements.  A
primitive with an output buffer reports the elements it stored, and they
are laid over the start of the buffer by `store`.
-/

namespace Nuitka

/-! ## Build variants and machine integers -/

/-- The four preprocessor variants: `_WIN32`, `__APPLE__`,
`__FreeBSD__ || __OpenBSD__`, and the remaining platforms ("mostly Linux or
compatible"). -/
inductive Platform
  | win32
  | apple
  | bsd
  | other
deriving DecidableEq

/-- Whether `defined(_WIN32)` holds. -/
def Platform.isWin32 : Platform → Bool
  | .win32 => true
  | _ => false

/-- A byte of file content or memory.  No operation inspects its value. -/
abbrev Byte := Nat

/-- A string of `filename_char_t`, without its terminator. -/
abbrev Path := List Nat

/-- The type `FILE_HANDLE` (`FILE *` or `HANDLE`).  The value `none` is the
invalid handle (`NULL`, respectively `INVALID_HANDLE_VALUE`). -/
abbrev FILE_HANDLE := Option Nat

/-- The cast `(DWORD)x`, also `uint32_t`. -/
def toDWORD (n : Nat) : Nat := n % 2 ^ 32

/-- The cast `(int64_t)x` of a signed value. -/
def toInt64 (x : Int) : Int := (x + 2 ^ 63) % 2 ^ 64 - 2 ^ 63

/-- The Win32 constant `INVALID_FILE_SIZE`, `(DWORD)0xFFFFFFFF`. -/
def INVALID_FILE_SIZE : Nat := 0xFFFFFFFF

/-- The stdio constant `EOF`. -/
def EOF : Int := -1

/-- The largest `long`. -/
def LONG_MAX : Nat := 2 ^ 63 - 1

/-- Lays `data` over the start of `buffer`: what a primitive does to the
memory behind an output pointer. -/
def store {α : Type} (buffer data : List α) : List α :=
  data ++ buffer.drop data.length

/-! ## Operating-system primitives -/

/-- The third argument of `fseek`. -/
inductive Whence
  | SEEK_SET
  | SEEK_CUR
  | SEEK_END
deriving DecidableEq

/-- The `fopen` mode strings the source uses, `"rb"` and `"wb"`. -/
inductive Mode
  | rb
  | wb
deriving DecidableEq

/-- The `dwDesiredAccess` values the source uses. -/
inductive Access
  | GENERIC_READ
  | GENERIC_WRITE
deriving DecidableEq

/-- The `dwCreationDisposition` values the source uses. -/
inductive Disposition
  | CREATE_ALWAYS
  | OPEN_EXISTING
deriving DecidableEq

/-- The Win32 constant `FILE_SHARE_WRITE`. -/
def FILE_SHARE_WRITE : Nat := 2

/-- The Win32 constant `FILE_ATTRIBUTE_NORMAL`. -/
def FILE_ATTRIBUTE_NORMAL : Nat := 0x80

/-- The sysctl name component `CTL_KERN` (FreeBSD value). -/
def CTL_KERN : Int := 1

/-- The sysctl name component `KERN_PROC` (FreeBSD value). -/
def KERN_PROC : Int := 14

/-- The sysctl name component `KERN_PROC_PATHNAME` (FreeBSD value). -/
def KERN_PROC_PATHNAME : Int := 12

/-- The string `"/proc/self/exe"`. -/
def procSelfExe : Path :=
  [47, 112, 114, 111, 99, 47, 115, 101, 108, 102, 47, 101, 120, 101]

/-- A primitive call that only returns a value. -/
structure Call (σ : Type) (α : Type) where
  state : σ
  ret : α

/-- A primitive call that returns `res` and stores `stored` at the start of
its output buffer. -/
structure CallOut (σ : Type) (α : Type) (β : Type) where
  state : σ
  res : α
  stored : List β

/-- The call `ReadFile(h, buffer, n, &read_size, NULL)`: its `BOOL`, the
`DWORD` it stores in `read_size` (the number of bytes transferred), and the
bytes it stores in the buffer. -/
structure ReadFileCall (σ : Type) where
  state : σ
  bool_res : Bool
  read_size : Nat
  stored : List Byte

/-- The call `WriteFile(h, chunk, n, NULL, NULL)`: its `BOOL` and the number
of bytes it wrote.  The source passes `NULL` for the count, so the wrapper
never sees `written`. -/
structure WriteFileCall (σ : Type) where
  state : σ
  bool_res : Bool
  written : Nat

/-- The operating-system primitives the source calls, over a state `σ`. -/
structure OS (σ : Type) where
  /-- `GetModuleFileNameW(NULL, buf, nSize)`. -/
  GetModuleFileNameW : σ → Nat → CallOut σ Nat Nat
  /-- `_NSGetExecutablePath(buf, &bufsize)`. -/
  NSGetExecutablePath : σ → Nat → CallOut σ Int Nat
  /-- `sysctl(mib, miblen, buf, &cb, NULL, 0)`. -/
  sysctl : σ → List Int → Nat → Nat → CallOut σ Int Nat
  /-- `readlink(path, buf, bufsiz)`. -/
  readlink : σ → Path → Nat → CallOut σ Int Nat
  /-- `fopen(filename, mode)`. -/
  fopen : σ → Path → Mode → Call σ FILE_HANDLE
  /-- `fread(buffer, size, nmemb, stream)`. -/
  fread : σ → Nat → Nat → FILE_HANDLE → CallOut σ Nat Byte
  /-- `fwrite(chunk, size, nmemb, stream)`. -/
  fwrite : σ → List Byte → Nat → Nat → FILE_HANDLE → Call σ Nat
  /-- `fclose(stream)`. -/
  fclose : σ → FILE_HANDLE → Call σ Int
  /-- `fseek(stream, offset, whence)`. -/
  fseek : σ → FILE_HANDLE → Int → Whence → Call σ Int
  /-- `ftell(stream)`. -/
  ftell : σ → FILE_HANDLE → Call σ Int
  /-- `CreateFileW(filename, access, share, NULL, disposition, flags, NULL)`. -/
  CreateFileW : σ → Path → Access → Nat → Disposition → Nat → Call σ FILE_HANDLE
  /-- `ReadFile(h, buffer, n, &read_size, NULL)`. -/
  ReadFile : σ → FILE_HANDLE → Nat → ReadFileCall σ
  /-- `WriteFile(h, chunk, n, NULL, NULL)`. -/
  WriteFile : σ → FILE_HANDLE → List Byte → Nat → WriteFileCall σ
  /-- `CloseHandle(h)`. -/
  CloseHandle : σ → FILE_HANDLE → Call σ Bool
  /-- `GetFileSize(h, NULL)`. -/
  GetFileSize : σ → FILE_HANDLE → Call σ Nat

/-! ## The functions of `HelpersFilesystemPaths.c` -/

/-- How a call of a function that may `abort()` ends. -/
inductive Outcome (α : Type)
  | returned (a : α)
  | aborted
deriving DecidableEq

/-- The function `getBinaryPath`.  `binary_filename` is the content of the
static buffer before the call; a returning call yields the state and the
content of the buffer it returns. -/
def getBinaryPath {σ : Type} (MAXPATHLEN : Nat) (p : Platform) (os : OS σ) (s : σ)
    (binary_filename : List Nat) : Outcome (σ × List Nat) :=
  match p with
  | .win32 =>
    let q := os.GetModuleFileNameW s MAXPATHLEN
    let binary_filename := store binary_filename q.stored
    if q.res = 0 then .aborted else .returned (q.state, binary_filename)
  | .apple =>
    let bufsize := toDWORD MAXPATHLEN
    let q := os.NSGetExecutablePath s bufsize
    let binary_filename := store binary_filename q.stored
    if q.res ≠ 0 then .aborted else .returned (q.state, binary_filename)
  | .bsd =>
    let mib := [CTL_KERN, KERN_PROC, KERN_PROC_PATHNAME, -1]
    let cb := MAXPATHLEN
    let q := os.sysctl s mib 4 cb
    let binary_filename := store binary_filename q.stored
    if q.res ≠ 0 then .aborted else .returned (q.state, binary_filename)
  | .other =>
    let binary_filename := store binary_filename (List.replicate MAXPATHLEN (0 : Nat))
    let q := os.readlink s procSelfExe (MAXPATHLEN - 1)
    let binary_filename := store binary_filename q.stored
    if q.res = -1 then .aborted else .returned (q.state, binary_filename)

/-- What `readFileChunk` leaves behind: the state, the buffer and the
returned `bool`. -/
structure ChunkRead (σ : Type) where
  state : σ
  buffer : List Byte
  ret : Bool

/-- The function `readFileChunk`. -/
def readFileChunk {σ : Type} (p : Platform) (os : OS σ) (s : σ) (file_handle : FILE_HANDLE)
    (buffer : List Byte) (size : Nat) : ChunkRead σ :=
  if p.isWin32 then
    let c := os.ReadFile s file_handle (toDWORD size)
    ⟨c.state, store buffer c.stored, c.bool_res && decide (c.read_size = size)⟩
  else
    let c := os.fread s 1 size file_handle
    let read_size := c.res
    ⟨c.state, store buffer c.stored, decide (read_size = size)⟩

/-- The function `writeFileChunk`. -/
def writeFileChunk {σ : Type} (p : Platform) (os : OS σ) (s : σ) (target_file : FILE_HANDLE)
    (chunk : List Byte) (chunk_size : Nat) : Call σ Bool :=
  if p.isWin32 then
    let c := os.WriteFile s target_file chunk (toDWORD chunk_size)
    ⟨c.state, c.bool_res⟩
  else
    let c := os.fwrite s chunk 1 chunk_size target_file
    let written := c.ret
    ⟨c.state, decide (written = chunk_size)⟩

/-- The function `createFileForWriting`. -/
def createFileForWriting {σ : Type} (p : Platform) (os : OS σ) (s : σ) (filename : Path) :
    Call σ FILE_HANDLE :=
  if p.isWin32 then
    os.CreateFileW s filename .GENERIC_WRITE FILE_SHARE_WRITE .CREATE_ALWAYS 0
  else
    os.fopen s filename .wb

/-- The function `openFileForReading`. -/
def openFileForReading {σ : Type} (p : Platform) (os : OS σ) (s : σ) (filename : Path) :
    Call σ FILE_HANDLE :=
  if p.isWin32 then
    os.CreateFileW s filename .GENERIC_READ 0 .OPEN_EXISTING FILE_ATTRIBUTE_NORMAL
  else
    os.fopen s filename .rb

/-- The function `closeFile`. -/
def closeFile {σ : Type} (p : Platform) (os : OS σ) (s : σ) (target_file : FILE_HANDLE) :
    Call σ Bool :=
  if p.isWin32 then
    let c := os.CloseHandle s target_file
    ⟨c.state, true⟩
  else
    let c := os.fclose s target_file
    let r := c.ret
    ⟨c.state, decide (r = 0)⟩

/-- The function `getFileSize`. -/
def getFileSize {σ : Type} (p : Platform) (os : OS σ) (s : σ) (file_handle : FILE_HANDLE) :
    Call σ Int :=
  if p.isWin32 then
    let c := os.GetFileSize s file_handle
    let file_size := toDWORD c.ret
    if file_size = INVALID_FILE_SIZE then
      ⟨c.state, -1⟩
    else
      ⟨c.state, toInt64 (file_size : Int)⟩
  else
    let c1 := os.fseek s file_handle 0 .SEEK_END
    if c1.ret ≠ 0 then
      ⟨c1.state, -1⟩
    else
      let c2 := os.ftell c1.state file_handle
      let file_size := c2.ret
      let c3 := os.fseek c2.state file_handle 0 .SEEK_SET
      if c3.ret ≠ 0 then
        ⟨c3.state, -1⟩
      else
        ⟨c3.state, toInt64 file_size⟩

/-! ## An executable file system -/

/-- An open stream or handle: the file it is open on, its read/write
position, and the access it was opened with. -/
structure Stream where
  path : Path
  pos : Nat
  canRead : Bool
  canWrite : Bool
deriving DecidableEq

/-- The state of the file system: the files by name (the first entry of a
name counts), the table of streams (a handle is an index into it; a closed
slot is `none`), and the path of the running executable when the system can
tell it. -/
structure FS where
  files : List (Path × List Byte)
  streams : List (Option Stream)
  selfExe : Option (List Nat)
deriving DecidableEq

/-- The content of the file called `path`. -/
def FS.content (s : FS) (path : Path) : Option (List Byte) :=
  s.files.lookup path

/-- The stream behind a handle. -/
def FS.stream (s : FS) (h : FILE_HANDLE) : Option Stream :=
  match h with
  | none => none
  | some i => (s.streams[i]?).join

/-- The read/write position of an open handle. -/
def FS.position (s : FS) (h : FILE_HANDLE) : Option Nat :=
  (s.stream h).map Stream.pos

/-- The length of the file an open handle is open on. -/
def FS.fileLength (s : FS) (h : FILE_HANDLE) : Option Nat :=
  (s.stream h).bind fun st => (s.content st.path).map List.length

/-- Replaces the content of `path`. -/
def FS.setContent (s : FS) (path : Path) (data : List Byte) : FS :=
  { s with files := (path, data) :: s.files }

/-- Replaces the stream in slot `i`. -/
def FS.setStream (s : FS) (i : Nat) (st : Option Stream) : FS :=
  { s with streams := s.streams.set i st }

/-- Opens a new stream; its handle is the next free index. -/
def FS.addStream (s : FS) (st : Stream) : Call FS FILE_HANDLE :=
  ⟨{ s with streams := s.streams ++ [some st] }, some s.streams.length⟩

/-- Writes `data` into `content` at offset `pos`; a gap is zero-filled. -/
def overwrite (content : List Byte) (pos : Nat) (data : List Byte) : List Byte :=
  content.take pos ++ List.replicate (pos - content.length) 0 ++ data
    ++ content.drop (pos + data.length)

/-- Reads up to `n` bytes at the position of `h`. -/
def FS.readAt (s : FS) (h : FILE_HANDLE) (n : Nat) : Option (FS × List Byte) :=
  match h, s.stream h with
  | some i, some st =>
    if st.canRead then
      match s.content st.path with
      | some content =>
        let data := (content.drop st.pos).take n
        some (s.setStream i (some { st with pos := st.pos + data.length }), data)
      | none => none
    else none
  | _, _ => none

/-- Writes `data` at the position of `h`. -/
def FS.writeAt (s : FS) (h : FILE_HANDLE) (data : List Byte) : Option FS :=
  match h, s.stream h with
  | some i, some st =>
    if st.canWrite then
      match s.content st.path with
      | some content =>
        some ((s.setContent st.path (overwrite content st.pos data)).setStream i
          (some { st with pos := st.pos + data.length }))
      | none => none
    else none
  | _, _ => none

/-- Closes `h`. -/
def FS.close (s : FS) (h : FILE_HANDLE) : Option FS :=
  match h, s.stream h with
  | some i, some _ => some (s.setStream i none)
  | _, _ => none

/-- The primitive `fopen`: `"rb"` needs an existing file, `"wb"` creates or
truncates; the empty name names no file. -/
def FS.fopen (s : FS) (filename : Path) (mode : Mode) : Call FS FILE_HANDLE :=
  if filename = [] then ⟨s, none⟩
  else
    match mode with
    | .rb =>
      match s.content filename with
      | some _ => s.addStream ⟨filename, 0, true, false⟩
      | none => ⟨s, none⟩
    | .wb => (s.setContent filename []).addStream ⟨filename, 0, false, true⟩

/-- The primitive `fread`: transfers what is left of `size * nmemb` bytes
and returns the number of complete items. -/
def FS.fread (s : FS) (size nmemb : Nat) (h : FILE_HANDLE) : CallOut FS Nat Byte :=
  match s.readAt h (size * nmemb) with
  | some (t, data) => ⟨t, data.length / size, data⟩
  | none => ⟨s, 0, []⟩

/-- The primitive `fwrite`: writes `size * nmemb` bytes of `chunk` and
returns the number of complete items. -/
def FS.fwrite (s : FS) (chunk : List Byte) (size nmemb : Nat) (h : FILE_HANDLE) : Call FS Nat :=
  match s.writeAt h (chunk.take (size * nmemb)) with
  | some t => ⟨t, (chunk.take (size * nmemb)).length / size⟩
  | none => ⟨s, 0⟩

/-- The primitive `fclose`. -/
def FS.fclose (s : FS) (h : FILE_HANDLE) : Call FS Int :=
  match s.close h with
  | some t => ⟨t, 0⟩
  | none => ⟨s, EOF⟩

/-- The primitive `fseek`: fails on a handle that is not open and on a
negative target. -/
def FS.fseek (s : FS) (h : FILE_HANDLE) (offset : Int) (whence : Whence) : Call FS Int :=
  match h, s.stream h with
  | some i, some st =>
    match s.content st.path with
    | some content =>
      let target : Int :=
        match whence with
        | .SEEK_SET => offset
        | .SEEK_CUR => st.pos + offset
        | .SEEK_END => content.length + offset
      if target < 0 then ⟨s, -1⟩
      else ⟨s.setStream i (some { st with pos := target.toNat }), 0⟩
    | none => ⟨s, -1⟩
  | _, _ => ⟨s, -1⟩

/-- The primitive `ftell`: the position, or `-1` on a handle that is not
open or at a position that no `long` holds. -/
def FS.ftell (s : FS) (h : FILE_HANDLE) : Call FS Int :=
  match s.stream h with
  | some st => if st.pos ≤ LONG_MAX then ⟨s, st.pos⟩ else ⟨s, -1⟩
  | none => ⟨s, -1⟩

/-- The primitive `CreateFileW`.  Sharing modes and attributes have no
effect in this file system. -/
def FS.CreateFileW (s : FS) (filename : Path) (access : Access) (_share : Nat)
    (disposition : Disposition) (_flags : Nat) : Call FS FILE_HANDLE :=
  if filename = [] then ⟨s, none⟩
  else
    let st : Stream :=
      ⟨filename, 0, decide (access = .GENERIC_READ), decide (access = .GENERIC_WRITE)⟩
    match disposition with
    | .CREATE_ALWAYS => (s.setContent filename []).addStream st
    | .OPEN_EXISTING =>
      match s.content filename with
      | some _ => s.addStream st
      | none => ⟨s, none⟩

/-- The primitive `ReadFile`: a read at end of file succeeds with fewer
bytes. -/
def FS.ReadFile (s : FS) (h : FILE_HANDLE) (n : Nat) : ReadFileCall FS :=
  match s.readAt h n with
  | some (t, data) => ⟨t, true, data.length, data⟩
  | none => ⟨s, false, 0, []⟩

/-- The primitive `WriteFile`. -/
def FS.WriteFile (s : FS) (h : FILE_HANDLE) (chunk : List Byte) (n : Nat) : WriteFileCall FS :=
  match s.writeAt h (chunk.take n) with
  | some t => ⟨t, true, (chunk.take n).length⟩
  | none => ⟨s, false, 0⟩

/-- The primitive `CloseHandle`. -/
def FS.CloseHandle (s : FS) (h : FILE_HANDLE) : Call FS Bool :=
  match s.close h with
  | some t => ⟨t, true⟩
  | none => ⟨s, false⟩

/-- The primitive `GetFileSize(h, NULL)`: the low 32 bits of the length. -/
def FS.GetFileSize (s : FS) (h : FILE_HANDLE) : Call FS Nat :=
  match s.fileLength h with
  | some n => ⟨s, n % 2 ^ 32⟩
  | none => ⟨s, INVALID_FILE_SIZE⟩

/-- The primitive `GetModuleFileNameW`: when the terminated path fits in
`nSize` characters it stores it and returns the number of characters without
the terminator; otherwise it stores the first `nSize - 1` characters and the
terminator and returns `nSize`; `0` on failure. -/
def FS.GetModuleFileNameW (s : FS) (nSize : Nat) : CallOut FS Nat Nat :=
  match s.selfExe with
  | some exe =>
    if exe.length < nSize then ⟨s, exe.length, exe ++ [0]⟩
    else ⟨s, nSize, (exe.take (nSize - 1) ++ [0]).take nSize⟩
  | none => ⟨s, 0, []⟩

/-- The primitive `_NSGetExecutablePath`: `0` when the terminated path fits,
`-1` otherwise. -/
def FS.NSGetExecutablePath (s : FS) (bufsize : Nat) : CallOut FS Int Nat :=
  match s.selfExe with
  | some exe => if exe.length < bufsize then ⟨s, 0, exe ++ [0]⟩ else ⟨s, -1, []⟩
  | none => ⟨s, -1, []⟩

/-- The primitive `sysctl` for `kern.proc.pathname`: `0` when the terminated
path fits, `-1` otherwise. -/
def FS.sysctl (s : FS) (mib : List Int) (_miblen : Nat) (cb : Nat) : CallOut FS Int Nat :=
  if mib = [CTL_KERN, KERN_PROC, KERN_PROC_PATHNAME, -1] then
    match s.selfExe with
    | some exe => if exe.length < cb then ⟨s, 0, exe ++ [0]⟩ else ⟨s, -1, []⟩
    | none => ⟨s, -1, []⟩
  else ⟨s, -1, []⟩

/-- The primitive `readlink`: stores at most `bufsiz` characters of the
link, without a terminator, and returns their number; `-1` on failure. -/
def FS.readlink (s : FS) (path : Path) (bufsiz : Nat) : CallOut FS Int Nat :=
  if path = procSelfExe then
    match s.selfExe with
    | some exe => ⟨s, (exe.take bufsiz).length, exe.take bufsiz⟩
    | none => ⟨s, -1, []⟩
  else ⟨s, -1, []⟩

/-- The file system as a record of primitives. -/
def idealOS : OS FS where
  GetModuleFileNameW := FS.GetModuleFileNameW
  NSGetExecutablePath := FS.NSGetExecutablePath
  sysctl := FS.sysctl
  readlink := FS.readlink
  fopen := FS.fopen
  fread := FS.fread
  fwrite := FS.fwrite
  fclose := FS.fclose
  fseek := FS.fseek
  ftell := FS.ftell
  CreateFileW := FS.CreateFileW
  ReadFile := FS.ReadFile
  WriteFile := FS.WriteFile
  CloseHandle := FS.CloseHandle
  GetFileSize := FS.GetFileSize

/-- A file system without files and streams. -/
def FS.empty : FS := ⟨[], [], none⟩

/-! ## Scenarios -/

/-- Writes the chunks in order, each whole, stopping at the first
`writeFileChunk` that returns `false`. -/
def writeChunks {σ : Type} (p : Platform) (os : OS σ) (s : σ) (h : FILE_HANDLE) :
    List (List Byte) → Call σ Bool
  | [] => ⟨s, true⟩
  | c :: cs =>
    let w := writeFileChunk p os s h c c.length
    if w.ret then writeChunks p os w.state h cs else ⟨w.state, false⟩

/-- A file system after `createFileForWriting` of the file `[1]` and one
`writeFileChunk` of the three bytes `1, 2, 3` in a stdio variant; the handle
is `some 0`. -/
def threeBytesWritten : Call FS Bool :=
  writeFileChunk .other idealOS (createFileForWriting .other idealOS FS.empty [1]).state
    (some 0) [1, 2, 3] 3

/-- An operating system whose `fseek` and `ftell` return the next value of a
script held in the state, whatever the handle, and whose other primitives
fail.  It exhibits the failure branches of `getFileSize`. -/
def scriptedOS : OS (List Int) where
  GetModuleFileNameW := fun s _ => ⟨s, 0, []⟩
  NSGetExecutablePath := fun s _ => ⟨s, -1, []⟩
  sysctl := fun s _ _ _ => ⟨s, -1, []⟩
  readlink := fun s _ _ => ⟨s, -1, []⟩
  fopen := fun s _ _ => ⟨s, none⟩
  fread := fun s _ _ _ => ⟨s, 0, []⟩
  fwrite := fun s _ _ _ _ => ⟨s, 0⟩
  fclose := fun s _ => ⟨s, EOF⟩
  fseek := fun s _ _ _ => ⟨s.tail, s.headD (-1)⟩
  ftell := fun s _ => ⟨s.tail, s.headD (-1)⟩
  CreateFileW := fun s _ _ _ _ _ => ⟨s, none⟩
  ReadFile := fun s _ _ => ⟨s, false, 0, []⟩
  WriteFile := fun s _ _ _ => ⟨s, false, 0⟩
  CloseHandle := fun s _ => ⟨s, false⟩
  GetFileSize := fun s _ => ⟨s, INVALID_FILE_SIZE⟩

/-- A file system with the one file `[1]` of content `c` and one handle,
`some 0`, open for reading at its start. -/
def singleFile (c : List Byte) : FS :=
  ⟨[([1], c)], [some ⟨[1], 0, true, false⟩], none⟩

/-- The file system right after `createFileForWriting` of the file `[1]` in
the Windows variant; the handle is `some 0`. -/
def createdOnWindows : FS :=
  (createFileForWriting .win32 idealOS FS.empty [1]).state

/-- What reading a file back observes. -/
structure ReadBack where
  size : Int
  readOk : Bool
  buffer : List Byte
deriving DecidableEq

/-- The round trip: `createFileForWriting`, `writeFileChunk` of each chunk,
`closeFile`, `openFileForReading`, `getFileSize`, then `readFileChunk` of as
many bytes as were handed to the writes.  It is `none` when a handle is
invalid, a write returns `false`, or `closeFile` returns `false`. -/
def writeThenReadBack {σ : Type} (p : Platform) (os : OS σ) (s : σ) (filename : Path)
    (chunks : List (List Byte)) (buffer : List Byte) : Option ReadBack :=
  let c := createFileForWriting p os s filename
  match c.ret with
  | none => none
  | some w =>
    let ws := writeChunks p os c.state (some w) chunks
    if ws.ret then
      let cl := closeFile p os ws.state (some w)
      if cl.ret then
        let o := openFileForReading p os cl.state filename
        match o.ret with
        | none => none
        | some r =>
          let sz := getFileSize p os o.state (some r)
          let rd := readFileChunk p os sz.state (some r) buffer chunks.flatten.length
          some ⟨sz.ret, rd.ret, rd.buffer⟩
      else none
    else none

/-- The number of bytes the read primitive reports as transferred when
called the way `readFileChunk` calls it: the `DWORD` that `ReadFile` stores,
respectively the item count of one-byte items that `fread` returns. -/
def readTransferred {σ : Type} (p : Platform) (os : OS σ) (s : σ) (file_handle : FILE_HANDLE)
    (size : Nat) : Nat :=
  if p.isWin32 then (os.ReadFile s file_handle (toDWORD size)).read_size
  else (os.fread s 1 size file_handle).res

/-- The number of bytes the write primitive wrote when called the way
`writeFileChunk` calls it. -/
def writeTransferred {σ : Type} (p : Platform) (os : OS σ) (s : σ) (target_file : FILE_HANDLE)
    (chunk : List Byte) (chunk_size : Nat) : Nat :=
  if p.isWin32 then (os.WriteFile s target_file chunk (toDWORD chunk_size)).written
  else (os.fwrite s chunk 1 chunk_size target_file).ret

/-! ## Arithmetic of the casts -/

theorem toInt64_neg_one : toInt64 (-1) = -1 := by
  unfold toInt64
  norm_num

theorem toInt64_of_long (x : Int) (h0 : 0 ≤ x) (h1 : x ≤ (LONG_MAX : Nat)) : toInt64 x = x := by
  unfold toInt64
  unfold LONG_MAX at h1
  omega

theorem toDWORD_lt (n : Nat) : toDWORD n < 2 ^ 32 := by
  unfold toDWORD
  omega

theorem toDWORD_of_lt (n : Nat) (h : n < 2 ^ 32) : toDWORD n = n := by
  unfold toDWORD
  omega

theorem toInt64_of_DWORD (n : Nat) (h : n < 2 ^ 32) : toInt64 (n : Int) = n := by
  unfold toInt64
  omega

/-! ## Observations on the file system -/

theorem FS.stream_some (s : FS) (i : Nat) : s.stream (some i) = (s.streams[i]?).join := rfl

theorem FS.lt_of_stream {s : FS} {i : Nat} {st : Stream} (h : s.stream (some i) = some st) :
    i < s.streams.length := by
  by_contra hlt
  have hnone : s.streams[i]? = none := List.getElem?_eq_none (Nat.le_of_not_lt hlt)
  simp [FS.stream_some, hnone] at h

theorem FS.stream_setStream_same (s : FS) (i : Nat) (st : Option Stream)
    (hi : i < s.streams.length) : (s.setStream i st).stream (some i) = st := by
  simp [FS.stream_some, FS.setStream, hi]

theorem FS.content_setStream (s : FS) (i : Nat) (st : Option Stream) (path : Path) :
    (s.setStream i st).content path = s.content path := rfl

theorem FS.length_setStream (s : FS) (i : Nat) (st : Option Stream) :
    (s.setStream i st).streams.length = s.streams.length := by
  simp [FS.setStream]

theorem FS.content_setContent_same (s : FS) (path : Path) (data : List Byte) :
    (s.setContent path data).content path = some data := by
  simp [FS.content, FS.setContent, List.lookup]

theorem FS.stream_setContent (s : FS) (path : Path) (data : List Byte) (h : FILE_HANDLE) :
    (s.setContent path data).stream h = s.stream h := rfl

theorem FS.length_setContent (s : FS) (path : Path) (data : List Byte) :
    (s.setContent path data).streams.length = s.streams.length := rfl

theorem FS.stream_addStream (s : FS) (st : Stream) :
    (s.addStream st).state.stream (some s.streams.length) = some st := by
  simp [FS.stream_some, FS.addStream]

theorem FS.content_addStream (s : FS) (st : Stream) (path : Path) :
    (s.addStream st).state.content path = s.content path := rfl

theorem FS.ret_addStream (s : FS) (st : Stream) :
    (s.addStream st).ret = some s.streams.length := rfl

theorem FS.setStream_setStream (s : FS) (i : Nat) (a b : Option Stream) :
    (s.setStream i a).setStream i b = s.setStream i b := by
  simp [FS.setStream]

/-! ## The primitives on an open handle -/

theorem FS.fseek_end_open {s : FS} {i : Nat} {st : Stream} {c : List Byte}
    (hs : s.stream (some i) = some st) (hc : s.content st.path = some c) :
    FS.fseek s (some i) 0 .SEEK_END
      = ⟨s.setStream i (some { st with pos := c.length }), 0⟩ := by
  simp [FS.fseek, hs, hc]

theorem FS.fseek_set_open {s : FS} {i : Nat} {st : Stream} {c : List Byte}
    (hs : s.stream (some i) = some st) (hc : s.content st.path = some c) :
    FS.fseek s (some i) 0 .SEEK_SET = ⟨s.setStream i (some { st with pos := 0 }), 0⟩ := by
  simp [FS.fseek, hs, hc]

theorem FS.fseek_ret_zero {s : FS} {h : FILE_HANDLE} {offset : Int} {whence : Whence}
    (hr : (FS.fseek s h offset whence).ret = 0) :
    ∃ i st c, h = some i ∧ s.stream (some i) = some st ∧ s.content st.path = some c := by
  cases h with
  | none => simp [FS.fseek] at hr
  | some i =>
    cases hs : s.stream (some i) with
    | none => simp [FS.fseek, hs] at hr
    | some st =>
      cases hc : s.content st.path with
      | none => simp [FS.fseek, hs, hc] at hr
      | some c => exact ⟨i, st, c, rfl, hs, hc⟩

theorem FS.ftell_open {s : FS} {h : FILE_HANDLE} {st : Stream} (hs : s.stream h = some st) :
    FS.ftell s h = ⟨s, if st.pos ≤ LONG_MAX then (st.pos : Int) else -1⟩ := by
  simp only [FS.ftell, hs]
  split <;> rfl

/-- The value `getFileSize` computes on an open stream of the file system,
in the variants that use stdio. -/
theorem getFileSize_stdio_open {p : Platform} (hp : p.isWin32 = false) {s : FS} {i : Nat}
    {st : Stream} {c : List Byte}
    (hs : s.stream (some i) = some st) (hc : s.content st.path = some c) :
    getFileSize p idealOS s (some i)
      = ⟨s.setStream i (some { st with pos := 0 }),
          if c.length ≤ LONG_MAX then (c.length : Int) else -1⟩ := by
  have hi := FS.lt_of_stream hs
  have h1 := FS.fseek_end_open hs hc
  have hs2 : (s.setStream i (some { st with pos := c.length })).stream (some i)
      = some { st with pos := c.length } := FS.stream_setStream_same s i _ hi
  have hc2 : (s.setStream i (some { st with pos := c.length })).content
      ({ st with pos := c.length } : Stream).path = some c := hc
  have h2 := FS.ftell_open hs2
  have h3 := FS.fseek_set_open hs2 hc2
  simp only [getFileSize, hp, idealOS, h1, h2, h3, FS.setStream_setStream]
  by_cases hl : c.length ≤ LONG_MAX
  · simp [hl, toInt64_of_long]
  · simp [hl, toInt64_neg_one]

/-- On a handle that is not open on a file, `getFileSize` fails in the
variants that use stdio and leaves the file system alone. -/
theorem getFileSize_stdio_closed {p : Platform} (hp : p.isWin32 = false) {s : FS}
    {h : FILE_HANDLE} (hr : (FS.fseek s h 0 .SEEK_END).ret ≠ 0) :
    getFileSize p idealOS s h = ⟨(FS.fseek s h 0 .SEEK_END).state, -1⟩ := by
  simp [getFileSize, hp, idealOS, hr]

/-! ## `getFileSize` and the read/write position -/

/-- C1 (the code at the failing input): in a stdio variant, after three bytes
were written the position is 3; `getFileSize` succeeds with 3 and leaves the
position at 0, not at 3, while the Windows variant of the same call leaves
the position at 3. -/
theorem getFileSize_moves_position :
    threeBytesWritten.ret = true
      ∧ threeBytesWritten.state.position (some 0) = some 3
      ∧ (getFileSize .other idealOS threeBytesWritten.state (some 0)).ret = 3
      ∧ (getFileSize .other idealOS threeBytesWritten.state (some 0)).state.position (some 0)
          = some 0
      ∧ (getFileSize .other idealOS threeBytesWritten.state (some 0)).state.position (some 0)
          ≠ threeBytesWritten.state.position (some 0)
      ∧ (getFileSize .win32 idealOS threeBytesWritten.state (some 0)).state.position (some 0)
          = threeBytesWritten.state.position (some 0) := by
  decide

/-- C10: in the stdio variants a call of `getFileSize` in which both seeks
succeed ends with the seek to offset 0, leaves the position of the handle at
0, and neither its result nor the file system it leaves depends on the
position the handle had before. -/
theorem getFileSize_stdio_rewinds (p : Platform) (hp : p.isWin32 = false) (s : FS)
    (h : FILE_HANDLE)
    (h1 : (idealOS.fseek s h 0 .SEEK_END).ret = 0)
    (_h3 : (idealOS.fseek (idealOS.ftell (idealOS.fseek s h 0 .SEEK_END).state h).state h 0
      .SEEK_SET).ret = 0) :
    (getFileSize p idealOS s h).state
        = (idealOS.fseek (idealOS.ftell (idealOS.fseek s h 0 .SEEK_END).state h).state h 0
            .SEEK_SET).state
      ∧ (getFileSize p idealOS s h).state.position h = some 0
      ∧ ∀ (i : Nat) (st : Stream) (P : Nat), h = some i → s.stream h = some st →
          getFileSize p idealOS (s.setStream i (some { st with pos := P })) h
            = getFileSize p idealOS s h := by
  obtain ⟨i, st, c, rfl, hs, hc⟩ := FS.fseek_ret_zero h1
  have hi := FS.lt_of_stream hs
  refine ⟨?_, ?_, ?_⟩
  · have h1ret : (idealOS.fseek s (some i) 0 .SEEK_END).ret = 0 := h1
    simp only [getFileSize, hp, h1ret]
    split <;> simp_all
  · rw [getFileSize_stdio_open hp hs hc]
    simp [FS.position, FS.stream_setStream_same s i _ hi]
  · intro j st2 P hj hs2
    cases hj
    rw [hs] at hs2
    cases hs2
    have hsP : (s.setStream i (some { st with pos := P })).stream (some i)
        = some { st with pos := P } := FS.stream_setStream_same s i _ hi
    have hcP : (s.setStream i (some { st with pos := P })).content
        ({ st with pos := P } : Stream).path = some c := hc
    rw [getFileSize_stdio_open hp hsP hcP, getFileSize_stdio_open hp hs hc,
      FS.setStream_setStream]

/-- C10 (witness): with three bytes written and the position at 3, both
seeks succeed and the position ends at 0. -/
theorem getFileSize_stdio_rewinds_witness :
    threeBytesWritten.state.position (some 0) = some 3
      ∧ (getFileSize .other idealOS threeBytesWritten.state (some 0)).state.position (some 0)
          = some 0 :=
  ⟨by decide,
    (getFileSize_stdio_rewinds .other rfl threeBytesWritten.state (some 0) (by decide)
      (by decide)).2.1⟩

/-! ## The result of `getFileSize` -/

/-- C5: in the stdio variants `getFileSize` returns -1 when the seek to the
end fails, when `ftell` returns -1, and when the seek back fails, over every
operating system; when the seeks succeed it returns what `ftell` reported;
and over the file system, when all three steps succeed, the result is the
length of the file and lies in the non-negative range of `int64_t`. -/
theorem getFileSize_stdio_contract (p : Platform) (hp : p.isWin32 = false) :
    (∀ (σ : Type) (os : OS σ) (s : σ) (h : FILE_HANDLE),
      ((os.fseek s h 0 .SEEK_END).ret ≠ 0 → (getFileSize p os s h).ret = -1)
      ∧ ((os.ftell (os.fseek s h 0 .SEEK_END).state h).ret = -1 →
          (getFileSize p os s h).ret = -1)
      ∧ ((os.fseek (os.ftell (os.fseek s h 0 .SEEK_END).state h).state h 0 .SEEK_SET).ret ≠ 0 →
          (getFileSize p os s h).ret = -1)
      ∧ ((os.fseek s h 0 .SEEK_END).ret = 0 →
          (os.fseek (os.ftell (os.fseek s h 0 .SEEK_END).state h).state h 0 .SEEK_SET).ret = 0 →
          (getFileSize p os s h).ret
            = toInt64 (os.ftell (os.fseek s h 0 .SEEK_END).state h).ret))
    ∧ ∀ (s : FS) (h : FILE_HANDLE),
        (idealOS.fseek s h 0 .SEEK_END).ret = 0 →
        (idealOS.ftell (idealOS.fseek s h 0 .SEEK_END).state h).ret ≠ -1 →
        (idealOS.fseek (idealOS.ftell (idealOS.fseek s h 0 .SEEK_END).state h).state h 0
          .SEEK_SET).ret = 0 →
        ∃ n : Nat, s.fileLength h = some n ∧ (getFileSize p idealOS s h).ret = (n : Int)
          ∧ 0 ≤ (getFileSize p idealOS s h).ret ∧ (getFileSize p idealOS s h).ret < 2 ^ 63 := by
  constructor
  · intro σ os s h
    refine ⟨?_, ?_, ?_, ?_⟩
    · intro h1
      simp [getFileSize, hp, h1]
    · intro h2
      by_cases h1 : (os.fseek s h 0 .SEEK_END).ret = 0
      · by_cases h3 : (os.fseek (os.ftell (os.fseek s h 0 .SEEK_END).state h).state h 0
            .SEEK_SET).ret = 0
        · simp [getFileSize, hp, h1, h2, h3, toInt64_neg_one]
        · simp [getFileSize, hp, h1, h3]
      · simp [getFileSize, hp, h1]
    · intro h3
      by_cases h1 : (os.fseek s h 0 .SEEK_END).ret = 0
      · simp [getFileSize, hp, h1, h3]
      · simp [getFileSize, hp, h1]
    · intro h1 h3
      simp [getFileSize, hp, h1, h3]
  · intro s h h1 h2 _h3
    obtain ⟨i, st, c, rfl, hs, hc⟩ := FS.fseek_ret_zero h1
    have hi := FS.lt_of_stream hs
    have hs2 : (s.setStream i (some { st with pos := c.length })).stream (some i)
        = some { st with pos := c.length } := FS.stream_setStream_same s i _ hi
    have hl : c.length ≤ LONG_MAX := by
      by_contra hl
      apply h2
      show (FS.ftell (FS.fseek s (some i) 0 .SEEK_END).state (some i)).ret = -1
      rw [FS.fseek_end_open hs hc, FS.ftell_open hs2]
      simp [hl]
    refine ⟨c.length, ?_, ?_, ?_, ?_⟩
    · simp [FS.fileLength, hs, hc]
    · rw [getFileSize_stdio_open hp hs hc]
      simp [hl]
    · rw [getFileSize_stdio_open hp hs hc]
      simp [hl]
    · rw [getFileSize_stdio_open hp hs hc]
      simp only [hl, if_true]
      unfold LONG_MAX at hl
      omega

/-- C5 (witness): a script in which the seek to the end fails, one in which
`ftell` returns -1, one in which the seek back fails, and the file system
with three bytes written, where all three steps succeed. -/
theorem getFileSize_stdio_contract_witness :
    (getFileSize .other scriptedOS [-1] none).ret = -1
      ∧ (getFileSize .other scriptedOS [0, -1, 0] none).ret = -1
      ∧ (getFileSize .other scriptedOS [0, 7, -1] none).ret = -1
      ∧ ∃ n : Nat, threeBytesWritten.state.fileLength (some 0) = some n
          ∧ (getFileSize .other idealOS threeBytesWritten.state (some 0)).ret = (n : Int)
          ∧ 0 ≤ (getFileSize .other idealOS threeBytesWritten.state (some 0)).ret
          ∧ (getFileSize .other idealOS threeBytesWritten.state (some 0)).ret < 2 ^ 63 :=
  ⟨((getFileSize_stdio_contract .other rfl).1 _ scriptedOS [-1] none).1 (by decide),
    ((getFileSize_stdio_contract .other rfl).1 _ scriptedOS [0, -1, 0] none).2.1 (by decide),
    ((getFileSize_stdio_contract .other rfl).1 _ scriptedOS [0, 7, -1] none).2.2.1 (by decide),
    (getFileSize_stdio_contract .other rfl).2 threeBytesWritten.state (some 0) (by decide)
      (by decide) (by decide)⟩

/-- C9: in the Windows variant, over every operating system, the result of
`getFileSize` is -1 or lies in `[0, 2^32 - 2]`: it is the 32-bit value of
the size query zero-extended, or -1 when that value is `INVALID_FILE_SIZE`;
over the file system the 32-bit value is the length modulo `2^32`, so a file
of `2^32` bytes or more never reports its length. -/
theorem getFileSize_win32_wraps :
    (∀ (σ : Type) (os : OS σ) (s : σ) (h : FILE_HANDLE),
      (getFileSize .win32 os s h).ret
          = (if toDWORD (os.GetFileSize s h).ret = 0xFFFFFFFF then -1
              else (toDWORD (os.GetFileSize s h).ret : Int))
        ∧ ((getFileSize .win32 os s h).ret = -1
            ∨ (0 ≤ (getFileSize .win32 os s h).ret
                ∧ (getFileSize .win32 os s h).ret ≤ 2 ^ 32 - 2)))
    ∧ ∀ (s : FS) (h : FILE_HANDLE) (S : Nat), s.fileLength h = some S →
        (getFileSize .win32 idealOS s h).ret
            = (if S % 2 ^ 32 = 0xFFFFFFFF then -1 else ((S % 2 ^ 32 : Nat) : Int))
          ∧ (2 ^ 32 ≤ S → (getFileSize .win32 idealOS s h).ret ≠ (S : Int)) := by
  have key : ∀ (σ : Type) (os : OS σ) (s : σ) (h : FILE_HANDLE),
      (getFileSize .win32 os s h).ret
          = (if toDWORD (os.GetFileSize s h).ret = 0xFFFFFFFF then -1
              else (toDWORD (os.GetFileSize s h).ret : Int)) := by
    intro σ os s h
    have hlt := toDWORD_lt (os.GetFileSize s h).ret
    simp only [getFileSize, Platform.isWin32, INVALID_FILE_SIZE, if_true]
    split
    · rfl
    · exact toInt64_of_DWORD _ hlt
  constructor
  · intro σ os s h
    refine ⟨key σ os s h, ?_⟩
    rw [key]
    have hlt := toDWORD_lt (os.GetFileSize s h).ret
    split
    · exact Or.inl rfl
    · right
      omega
  · intro s h S hS
    have hv : toDWORD (idealOS.GetFileSize s h).ret = S % 2 ^ 32 := by
      simp [idealOS, FS.GetFileSize, hS, toDWORD]
    have hr := key FS idealOS s h
    rw [hv] at hr
    refine ⟨hr, ?_⟩
    intro hbig
    rw [hr]
    have hm : S % 2 ^ 32 < 2 ^ 32 := Nat.mod_lt _ (by norm_num)
    split <;> omega

theorem fileLength_singleFile (c : List Byte) :
    (singleFile c).fileLength (some 0) = some c.length := by
  simp [singleFile, FS.fileLength, FS.stream, FS.content, List.lookup]

/-- C9 (witness): a handle on the three-byte file reports 3; a handle on a
file of `2^32 + 5` bytes reports 5. -/
theorem getFileSize_win32_wraps_witness :
    (getFileSize .win32 idealOS threeBytesWritten.state (some 0)).ret
        = (if 3 % 2 ^ 32 = 0xFFFFFFFF then -1 else ((3 % 2 ^ 32 : Nat) : Int))
      ∧ (getFileSize .win32 idealOS (singleFile (List.replicate (2 ^ 32 + 5) 0)) (some 0)).ret
          ≠ ((2 ^ 32 + 5 : Nat) : Int) :=
  ⟨(getFileSize_win32_wraps.2 threeBytesWritten.state (some 0) 3 (by decide)).1,
    (getFileSize_win32_wraps.2 (singleFile (List.replicate (2 ^ 32 + 5) 0)) (some 0)
      (2 ^ 32 + 5)
      (by rw [fileLength_singleFile, List.length_replicate])).2 (Nat.le_add_right _ _)⟩

/-! ## `closeFile` -/

/-- C8: over every operating system, `closeFile` in the Windows variant
returns `true` whatever `CloseHandle` reports, and in the stdio variants it
returns `true` exactly when `fclose` returns 0. -/
theorem closeFile_asymmetry {σ : Type} (os : OS σ) (s : σ) (target_file : FILE_HANDLE) :
    (closeFile .win32 os s target_file).ret = true
      ∧ (closeFile .win32 os s target_file).state = (os.CloseHandle s target_file).state
      ∧ ∀ p : Platform, p ≠ .win32 →
          (((closeFile p os s target_file).ret = true ↔ (os.fclose s target_file).ret = 0)
            ∧ (closeFile p os s target_file).state = (os.fclose s target_file).state) := by
  refine ⟨rfl, rfl, ?_⟩
  intro p hp
  have hw : p.isWin32 = false := by
    cases p <;> simp_all [Platform.isWin32]
  simp [closeFile, hw]

/-- C8 (witness): closing a handle that is not open reports `true` in the
Windows variant, where `CloseHandle` reports `false`, and `false` in a stdio
variant, where `fclose` returns `EOF`; closing the open handle of the
three-byte file reports `true` in the stdio variant. -/
theorem closeFile_asymmetry_witness :
    (idealOS.CloseHandle FS.empty none).ret = false
      ∧ (closeFile .win32 idealOS FS.empty none).ret = true
      ∧ ((closeFile .other idealOS FS.empty none).ret = true
          ↔ (idealOS.fclose FS.empty none).ret = 0)
      ∧ (closeFile .other idealOS FS.empty none).ret = false
      ∧ (closeFile .other idealOS threeBytesWritten.state (some 0)).ret = true :=
  ⟨by decide, (closeFile_asymmetry idealOS FS.empty none).1,
    ((closeFile_asymmetry idealOS FS.empty none).2.2 .other (by decide)).1,
    by decide, by decide⟩

/-! ## `getBinaryPath` -/

/-- C6: over every operating system and in every variant, `getBinaryPath`
aborts exactly when the self-path query reports failure
(`GetModuleFileNameW` returns 0, `_NSGetExecutablePath` or `sysctl` returns
non-zero, `readlink` returns -1), and returns exactly when it does not. -/
theorem getBinaryPath_aborts_iff_query_fails {σ : Type} (MAXPATHLEN : Nat) (os : OS σ) (s : σ)
    (binary_filename : List Nat) :
    ((getBinaryPath MAXPATHLEN .win32 os s binary_filename = .aborted
        ↔ (os.GetModuleFileNameW s MAXPATHLEN).res = 0)
      ∧ ((∃ r, getBinaryPath MAXPATHLEN .win32 os s binary_filename = .returned r)
        ↔ (os.GetModuleFileNameW s MAXPATHLEN).res ≠ 0))
    ∧ ((getBinaryPath MAXPATHLEN .apple os s binary_filename = .aborted
        ↔ (os.NSGetExecutablePath s (toDWORD MAXPATHLEN)).res ≠ 0)
      ∧ ((∃ r, getBinaryPath MAXPATHLEN .apple os s binary_filename = .returned r)
        ↔ (os.NSGetExecutablePath s (toDWORD MAXPATHLEN)).res = 0))
    ∧ ((getBinaryPath MAXPATHLEN .bsd os s binary_filename = .aborted
        ↔ (os.sysctl s [CTL_KERN, KERN_PROC, KERN_PROC_PATHNAME, -1] 4 MAXPATHLEN).res ≠ 0)
      ∧ ((∃ r, getBinaryPath MAXPATHLEN .bsd os s binary_filename = .returned r)
        ↔ (os.sysctl s [CTL_KERN, KERN_PROC, KERN_PROC_PATHNAME, -1] 4 MAXPATHLEN).res = 0))
    ∧ ((getBinaryPath MAXPATHLEN .other os s binary_filename = .aborted
        ↔ (os.readlink s procSelfExe (MAXPATHLEN - 1)).res = -1)
      ∧ ((∃ r, getBinaryPath MAXPATHLEN .other os s binary_filename = .returned r)
        ↔ (os.readlink s procSelfExe (MAXPATHLEN - 1)).res ≠ -1)) := by
  refine ⟨⟨?_, ?_⟩, ⟨?_, ?_⟩, ⟨?_, ?_⟩, ⟨?_, ?_⟩⟩
  · by_cases hq : (os.GetModuleFileNameW s MAXPATHLEN).res = 0 <;> simp [getBinaryPath, hq]
  · by_cases hq : (os.GetModuleFileNameW s MAXPATHLEN).res = 0 <;> simp [getBinaryPath, hq]
  · by_cases hq : (os.NSGetExecutablePath s (toDWORD MAXPATHLEN)).res = 0 <;>
      simp [getBinaryPath, hq]
  · by_cases hq : (os.NSGetExecutablePath s (toDWORD MAXPATHLEN)).res = 0 <;>
      simp [getBinaryPath, hq]
  · by_cases hq : (os.sysctl s [CTL_KERN, KERN_PROC, KERN_PROC_PATHNAME, -1] 4 MAXPATHLEN).res = 0
      <;> simp [getBinaryPath, hq]
  · by_cases hq : (os.sysctl s [CTL_KERN, KERN_PROC, KERN_PROC_PATHNAME, -1] 4 MAXPATHLEN).res = 0
      <;> simp [getBinaryPath, hq]
  · by_cases hq : (os.readlink s procSelfExe (MAXPATHLEN - 1)).res = -1 <;>
      simp [getBinaryPath, hq]
  · by_cases hq : (os.readlink s procSelfExe (MAXPATHLEN - 1)).res = -1 <;>
      simp [getBinaryPath, hq]

/-- C6 (witness): on a system that cannot tell the path of the executable
every variant aborts; on one that can, the Windows and the `readlink`
variants return. -/
theorem getBinaryPath_aborts_iff_query_fails_witness :
    getBinaryPath 8 .win32 idealOS FS.empty [9, 9, 9, 9, 9, 9, 9, 9] = .aborted
      ∧ getBinaryPath 8 .apple idealOS FS.empty [9, 9, 9, 9, 9, 9, 9, 9] = .aborted
      ∧ getBinaryPath 8 .bsd idealOS FS.empty [9, 9, 9, 9, 9, 9, 9, 9] = .aborted
      ∧ getBinaryPath 8 .other idealOS FS.empty [9, 9, 9, 9, 9, 9, 9, 9] = .aborted
      ∧ (∃ r, getBinaryPath 8 .win32 idealOS ⟨[], [], some [5, 6, 7]⟩ [9, 9, 9, 9, 9, 9, 9, 9]
          = .returned r)
      ∧ (∃ r, getBinaryPath 8 .other idealOS ⟨[], [], some [5, 6, 7]⟩ [9, 9, 9, 9, 9, 9, 9, 9]
          = .returned r) :=
  ⟨(getBinaryPath_aborts_iff_query_fails 8 idealOS FS.empty _).1.1.mpr (by decide),
    (getBinaryPath_aborts_iff_query_fails 8 idealOS FS.empty _).2.1.1.mpr (by decide),
    (getBinaryPath_aborts_iff_query_fails 8 idealOS FS.empty _).2.2.1.1.mpr (by decide),
    (getBinaryPath_aborts_iff_query_fails 8 idealOS FS.empty _).2.2.2.1.mpr (by decide),
    (getBinaryPath_aborts_iff_query_fails 8 idealOS ⟨[], [], some [5, 6, 7]⟩ _).1.2.mpr
      (by decide),
    (getBinaryPath_aborts_iff_query_fails 8 idealOS ⟨[], [], some [5, 6, 7]⟩ _).2.2.2.2.mpr
      (by decide)⟩

/-- C7: in the `readlink` variant, over every operating system, when
`readlink` does not return -1 and stores `r ≤ MAXPATHLEN - 1` characters,
`getBinaryPath` returns a buffer of `MAXPATHLEN` elements whose first `r`
elements are the stored characters and whose elements from index `r` on,
the last one among them, are zero, whatever the buffer held before. -/
theorem getBinaryPath_readlink_terminated {σ : Type} (MAXPATHLEN : Nat) (os : OS σ) (s : σ)
    (binary_filename : List Nat)
    (hM : 0 < MAXPATHLEN)
    (hlen : binary_filename.length = MAXPATHLEN)
    (hres : (os.readlink s procSelfExe (MAXPATHLEN - 1)).res ≠ -1)
    (hr : (os.readlink s procSelfExe (MAXPATHLEN - 1)).stored.length ≤ MAXPATHLEN - 1) :
    ∃ buf : List Nat,
      getBinaryPath MAXPATHLEN .other os s binary_filename
          = .returned ((os.readlink s procSelfExe (MAXPATHLEN - 1)).state, buf)
        ∧ buf.length = MAXPATHLEN
        ∧ buf.take (os.readlink s procSelfExe (MAXPATHLEN - 1)).stored.length
            = (os.readlink s procSelfExe (MAXPATHLEN - 1)).stored
        ∧ (∀ i : Nat, (os.readlink s procSelfExe (MAXPATHLEN - 1)).stored.length ≤ i →
            i < MAXPATHLEN → buf[i]? = some 0)
        ∧ buf[MAXPATHLEN - 1]? = some 0 := by
  generalize hq : os.readlink s procSelfExe (MAXPATHLEN - 1) = q at hres hr
  have hzero : store binary_filename (List.replicate MAXPATHLEN (0 : Nat))
      = List.replicate MAXPATHLEN 0 := by
    simp [store, hlen]
  have hbuf : store (List.replicate MAXPATHLEN (0 : Nat)) q.stored
      = q.stored ++ List.replicate (MAXPATHLEN - q.stored.length) 0 := by
    simp [store]
  have hidx : ∀ i : Nat, q.stored.length ≤ i → i < MAXPATHLEN →
      (q.stored ++ List.replicate (MAXPATHLEN - q.stored.length) 0)[i]? = some 0 := by
    intro i hi1 hi2
    rw [List.getElem?_append_right hi1, List.getElem?_replicate]
    have : i - q.stored.length < MAXPATHLEN - q.stored.length := by omega
    simp [this]
  refine ⟨q.stored ++ List.replicate (MAXPATHLEN - q.stored.length) 0, ?_, ?_, ?_, hidx, ?_⟩
  · simp only [getBinaryPath, hq, hzero, hbuf]
    simp [hres]
  · simp
    omega
  · simp
  · exact hidx (MAXPATHLEN - 1) hr (by omega)

/-- C7 (witness): with `MAXPATHLEN = 8`, a buffer full of nines and the link
`5, 6, 7`, the returned buffer is `5, 6, 7` followed by zeros. -/
theorem getBinaryPath_readlink_terminated_witness :
    ∃ buf : List Nat,
      getBinaryPath 8 .other idealOS ⟨[], [], some [5, 6, 7]⟩ [9, 9, 9, 9, 9, 9, 9, 9]
          = .returned
              ((idealOS.readlink ⟨[], [], some [5, 6, 7]⟩ procSelfExe (8 - 1)).state, buf)
        ∧ buf.length = 8
        ∧ buf.take (idealOS.readlink ⟨[], [], some [5, 6, 7]⟩ procSelfExe (8 - 1)).stored.length
            = (idealOS.readlink ⟨[], [], some [5, 6, 7]⟩ procSelfExe (8 - 1)).stored
        ∧ (∀ i : Nat,
            (idealOS.readlink ⟨[], [], some [5, 6, 7]⟩ procSelfExe (8 - 1)).stored.length ≤ i →
            i < 8 → buf[i]? = some 0)
        ∧ buf[8 - 1]? = some 0 :=
  getBinaryPath_readlink_terminated 8 idealOS ⟨[], [], some [5, 6, 7]⟩
    [9, 9, 9, 9, 9, 9, 9, 9] (by decide) (by decide) (by decide) (by decide)

/-! ## `readFileChunk` and `writeFileChunk` -/

theorem FS.readAt_open {s : FS} {i : Nat} {st : Stream} {c : List Byte} (n : Nat)
    (hs : s.stream (some i) = some st) (hc : s.content st.path = some c)
    (hread : st.canRead = true) :
    s.readAt (some i) n
      = some (s.setStream i (some { st with pos := st.pos + ((c.drop st.pos).take n).length }),
          (c.drop st.pos).take n) := by
  simp [FS.readAt, hs, hc, hread]

theorem FS.readAt_length {s t : FS} {h : FILE_HANDLE} {n P L : Nat} {data : List Byte}
    (hr : s.readAt h n = some (t, data)) (hP : s.position h = some P)
    (hL : s.fileLength h = some L) : data.length ≤ L - P ∧ data.length ≤ n := by
  cases h with
  | none => simp [FS.readAt] at hr
  | some i =>
    cases hs : s.stream (some i) with
    | none => simp [FS.readAt, hs] at hr
    | some st =>
      cases hc : s.content st.path with
      | none =>
        by_cases hread : st.canRead = true <;> simp [FS.readAt, hs, hc, hread] at hr
      | some c =>
        by_cases hread : st.canRead = true
        · rw [FS.readAt_open n hs hc hread] at hr
          simp only [Option.some.injEq, Prod.mk.injEq] at hr
          obtain ⟨_, rfl⟩ := hr
          simp only [FS.position, hs, Option.map_some', Option.some.injEq] at hP
          simp only [FS.fileLength, hs, hc, Option.some_bind, Option.map_some',
            Option.some.injEq] at hL
          subst hP
          subst hL
          simp only [List.length_take, List.length_drop]
          omega
        · simp [FS.readAt, hs, hc, hread] at hr

theorem readFileChunk_stdio_ideal {p : Platform} (hp : p.isWin32 = false) (s : FS)
    (h : FILE_HANDLE) (buffer : List Byte) (size : Nat) :
    readFileChunk p idealOS s h buffer size
      = match s.readAt h size with
        | some (t, data) => ⟨t, store buffer data, decide (data.length = size)⟩
        | none => ⟨s, store buffer [], decide (0 = size)⟩ := by
  cases hr : s.readAt h size with
  | none => simp [readFileChunk, hp, idealOS, FS.fread, hr]
  | some td => simp [readFileChunk, hp, idealOS, FS.fread, hr]

theorem readFileChunk_win32_ideal {p : Platform} (hp : p.isWin32 = true) (s : FS)
    (h : FILE_HANDLE) (buffer : List Byte) (size : Nat) :
    readFileChunk p idealOS s h buffer size
      = match s.readAt h (toDWORD size) with
        | some (t, data) => ⟨t, store buffer data, decide (data.length = size)⟩
        | none => ⟨s, store buffer [], false⟩ := by
  cases hr : s.readAt h (toDWORD size) with
  | none => simp [readFileChunk, hp, idealOS, FS.ReadFile, hr]
  | some td => simp [readFileChunk, hp, idealOS, FS.ReadFile, hr]

/-- C2: in every variant and over every operating system, `readFileChunk`
returns `true` only if the number of bytes the read primitive transferred
equals the requested size; over the file system, a successful call stored
exactly `size` bytes in the buffer, and a call that requests more bytes than
remain before the end of the file returns `false`. -/
theorem readFileChunk_exact (p : Platform) :
    (∀ (σ : Type) (os : OS σ) (s : σ) (h : FILE_HANDLE) (buffer : List Byte) (size : Nat),
      (readFileChunk p os s h buffer size).ret = true → readTransferred p os s h size = size)
    ∧ (∀ (s : FS) (h : FILE_HANDLE) (buffer : List Byte) (size : Nat),
        (readFileChunk p idealOS s h buffer size).ret = true →
          ∃ data : List Byte, data.length = size
            ∧ (readFileChunk p idealOS s h buffer size).buffer = store buffer data)
    ∧ ∀ (s : FS) (h : FILE_HANDLE) (buffer : List Byte) (size P L : Nat),
        s.position h = some P → s.fileLength h = some L → L - P < size →
          (readFileChunk p idealOS s h buffer size).ret = false := by
  refine ⟨?_, ?_, ?_⟩
  · intro σ os s h buffer size hret
    cases hp : p.isWin32
    · simpa [readFileChunk, readTransferred, hp] using hret
    · simp only [readFileChunk, hp, if_true, Bool.and_eq_true, decide_eq_true_eq] at hret
      simpa [readTransferred, hp] using hret.2
  · intro s h buffer size hret
    cases hp : p.isWin32
    · rw [readFileChunk_stdio_ideal hp] at hret ⊢
      cases hr : s.readAt h size with
      | none =>
        simp only [hr, decide_eq_true_eq] at hret ⊢
        exact ⟨[], hret, rfl⟩
      | some td =>
        obtain ⟨t, data⟩ := td
        simp only [hr, decide_eq_true_eq] at hret ⊢
        exact ⟨data, hret, rfl⟩
    · rw [readFileChunk_win32_ideal hp] at hret ⊢
      cases hr : s.readAt h (toDWORD size) with
      | none => simp [hr] at hret
      | some td =>
        obtain ⟨t, data⟩ := td
        simp only [hr, decide_eq_true_eq] at hret ⊢
        exact ⟨data, hret, rfl⟩
  · intro s h buffer size P L hP hL hlt
    cases hp : p.isWin32
    · rw [readFileChunk_stdio_ideal hp]
      cases hr : s.readAt h size with
      | none =>
        simp only [decide_eq_false_iff_not]
        omega
      | some td =>
        obtain ⟨t, data⟩ := td
        have hd := (FS.readAt_length hr hP hL).1
        simp only [decide_eq_false_iff_not]
        omega
    · rw [readFileChunk_win32_ideal hp]
      cases hr : s.readAt h (toDWORD size) with
      | none => rfl
      | some td =>
        obtain ⟨t, data⟩ := td
        have hd := (FS.readAt_length hr hP hL).1
        simp only [decide_eq_false_iff_not]
        omega

/-- C2 (witness): on the three-byte file a request of 3 bytes succeeds with
3 bytes transferred, and a request of 4 bytes, one more than remain, fails,
in a stdio variant and in the Windows variant. -/
theorem readFileChunk_exact_witness :
    readTransferred .other idealOS (singleFile [1, 2, 3]) (some 0) 3 = 3
      ∧ readTransferred .win32 idealOS (singleFile [1, 2, 3]) (some 0) 3 = 3
      ∧ (∃ data : List Byte, data.length = 3
          ∧ (readFileChunk .other idealOS (singleFile [1, 2, 3]) (some 0) [0, 0, 0] 3).buffer
              = store [0, 0, 0] data)
      ∧ (readFileChunk .other idealOS (singleFile [1, 2, 3]) (some 0) [0, 0, 0, 0] 4).ret = false
      ∧ (readFileChunk .win32 idealOS (singleFile [1, 2, 3]) (some 0) [0, 0, 0, 0] 4).ret
          = false :=
  ⟨(readFileChunk_exact .other).1 FS idealOS (singleFile [1, 2, 3]) (some 0) [0, 0, 0] 3
      (by decide),
    (readFileChunk_exact .win32).1 FS idealOS (singleFile [1, 2, 3]) (some 0) [0, 0, 0] 3
      (by decide),
    (readFileChunk_exact .other).2.1 (singleFile [1, 2, 3]) (some 0) [0, 0, 0] 3 (by decide),
    (readFileChunk_exact .other).2.2 (singleFile [1, 2, 3]) (some 0) [0, 0, 0, 0] 4 0 3
      (by decide) (by decide) (by decide),
    (readFileChunk_exact .win32).2.2 (singleFile [1, 2, 3]) (some 0) [0, 0, 0, 0] 4 0 3
      (by decide) (by decide) (by decide)⟩

theorem overwrite_at_end (data c : List Byte) : overwrite data data.length c = data ++ c := by
  simp [overwrite]

theorem FS.writeAt_open {s : FS} {i : Nat} {st : Stream} {c : List Byte} (data : List Byte)
    (hs : s.stream (some i) = some st) (hc : s.content st.path = some c)
    (hwrite : st.canWrite = true) :
    s.writeAt (some i) data
      = some ((s.setContent st.path (overwrite c st.pos data)).setStream i
          (some { st with pos := st.pos + data.length })) := by
  simp [FS.writeAt, hs, hc, hwrite]

/-- The effect of `writeFileChunk` of a whole chunk on a handle that is open
for writing at the end of its file; in the Windows variant the chunk has
fewer than `2^32` bytes. -/
theorem writeFileChunk_append (p : Platform) {s : FS} {w : Nat} {path : Path}
    {data : List Byte} (c : List Byte)
    (hs : s.stream (some w) = some ⟨path, data.length, false, true⟩)
    (hc : s.content path = some data)
    (hsize : p.isWin32 = true → c.length < 2 ^ 32) :
    ∃ t : FS, writeFileChunk p idealOS s (some w) c c.length = ⟨t, true⟩
      ∧ t.stream (some w) = some ⟨path, (data ++ c).length, false, true⟩
      ∧ t.content path = some (data ++ c)
      ∧ t.streams.length = s.streams.length := by
  have hi := FS.lt_of_stream hs
  have hw := FS.writeAt_open c hs hc rfl
  simp only [overwrite_at_end] at hw
  refine ⟨(s.setContent path (data ++ c)).setStream w
      (some ⟨path, data.length + c.length, false, true⟩), ?_, ?_, ?_, ?_⟩
  · cases hp : p.isWin32
    · simp [writeFileChunk, hp, idealOS, FS.fwrite, hw]
    · have hd : toDWORD c.length = c.length := toDWORD_of_lt _ (hsize hp)
      simp [writeFileChunk, hp, idealOS, FS.WriteFile, hd, hw]
  · rw [FS.stream_setStream_same _ _ _ (by rw [FS.length_setContent]; exact hi)]
    simp
  · rw [FS.content_setStream, FS.content_setContent_same]
  · rw [FS.length_setStream, FS.length_setContent]

/-- The effect of `writeChunks` on a handle that is open for writing at the
end of its file. -/
theorem writeChunks_append (p : Platform) (w : Nat) (path : Path) (chunks : List (List Byte))
    (hsize : p.isWin32 = true → ∀ c ∈ chunks, c.length < 2 ^ 32) :
    ∀ (s : FS) (data : List Byte),
      s.stream (some w) = some ⟨path, data.length, false, true⟩ →
      s.content path = some data →
      ∃ t : FS, writeChunks p idealOS s (some w) chunks = ⟨t, true⟩
        ∧ t.stream (some w) = some ⟨path, (data ++ chunks.flatten).length, false, true⟩
        ∧ t.content path = some (data ++ chunks.flatten)
        ∧ t.streams.length = s.streams.length := by
  induction chunks with
  | nil =>
    intro s data hs hc
    exact ⟨s, rfl, by simpa using hs, by simpa using hc, rfl⟩
  | cons c cs ih =>
    intro s data hs hc
    obtain ⟨t, ht, hts, htc, htl⟩ :=
      writeFileChunk_append p c hs hc (fun hp => hsize hp c (List.mem_cons_self _ _))
    obtain ⟨u, hu, hus, huc, hul⟩ :=
      ih (fun hp d hd => hsize hp d (List.mem_cons_of_mem _ hd)) t (data ++ c) hts htc
    refine ⟨u, ?_, ?_, ?_, ?_⟩
    · simp [writeChunks, ht, hu]
    · simpa [List.append_assoc] using hus
    · simpa [List.append_assoc] using huc
    · rw [hul, htl]

/-! ## The round trip -/

theorem createFileForWriting_ideal (p : Platform) (s : FS) {path : Path} (hpath : path ≠ []) :
    createFileForWriting p idealOS s path
      = (s.setContent path []).addStream ⟨path, 0, false, true⟩ := by
  cases hp : p.isWin32 <;>
    simp [createFileForWriting, hp, idealOS, FS.fopen, FS.CreateFileW, hpath]

theorem openFileForReading_ideal (p : Platform) (s : FS) {path : Path} {c : List Byte}
    (hpath : path ≠ []) (hc : s.content path = some c) :
    openFileForReading p idealOS s path = s.addStream ⟨path, 0, true, false⟩ := by
  cases hp : p.isWin32 <;>
    simp [openFileForReading, hp, idealOS, FS.fopen, FS.CreateFileW, hpath, hc]

theorem closeFile_ideal (p : Platform) {s : FS} {i : Nat} {st : Stream}
    (hs : s.stream (some i) = some st) :
    closeFile p idealOS s (some i) = ⟨s.setStream i none, true⟩ := by
  cases hp : p.isWin32 <;>
    simp [closeFile, hp, idealOS, FS.fclose, FS.CloseHandle, FS.close, hs]

theorem getFileSize_win32_open {s : FS} {i : Nat} {st : Stream} {c : List Byte}
    (hs : s.stream (some i) = some st) (hc : s.content st.path = some c)
    (hlen : c.length < 2 ^ 32) :
    getFileSize .win32 idealOS s (some i)
      = ⟨s, if c.length = 0xFFFFFFFF then -1 else (c.length : Int)⟩ := by
  have hL : s.fileLength (some i) = some c.length := by
    simp [FS.fileLength, hs, hc]
  have hm : c.length % 2 ^ 32 = c.length := Nat.mod_eq_of_lt hlen
  have hd : toDWORD c.length = c.length := toDWORD_of_lt _ hlen
  have hG : FS.GetFileSize s (some i) = ⟨s, c.length⟩ := by
    simp only [FS.GetFileSize, hL, hm]
  simp only [getFileSize, Platform.isWin32, if_true, idealOS, hG, hd, INVALID_FILE_SIZE,
    toInt64_of_DWORD _ hlen]
  by_cases hinv : c.length = 0xFFFFFFFF
  · rw [if_pos hinv, if_pos hinv]
  · rw [if_neg hinv, if_neg hinv]

/-- Reading the whole file through a handle at its start. -/
theorem readFileChunk_whole (p : Platform) {s : FS} {i : Nat} {path : Path} {c : List Byte}
    (buffer : List Byte)
    (hs : s.stream (some i) = some ⟨path, 0, true, false⟩) (hc : s.content path = some c)
    (hsize : p.isWin32 = true → c.length < 2 ^ 32) :
    (readFileChunk p idealOS s (some i) buffer c.length).ret = true
      ∧ (readFileChunk p idealOS s (some i) buffer c.length).buffer = store buffer c := by
  cases hp : p.isWin32
  · rw [readFileChunk_stdio_ideal hp, FS.readAt_open c.length hs hc rfl]
    simp
  · rw [readFileChunk_win32_ideal hp, toDWORD_of_lt _ (hsize hp),
      FS.readAt_open c.length hs hc rfl]
    simp

/-- The state in which the round trip reads back: after the writes, the
close and the reopening, the new handle is at the start of a file that
holds the chunks in order. -/
theorem writeThenReadBack_eq (p : Platform) (s : FS) (path : Path)
    (chunks : List (List Byte)) (buffer : List Byte) (hpath : path ≠ [])
    (hsize : p.isWin32 = true → ∀ c ∈ chunks, c.length < 2 ^ 32) :
    ∃ (u : FS) (r : Nat),
      u.stream (some r) = some ⟨path, 0, true, false⟩
        ∧ u.content path = some chunks.flatten
        ∧ writeThenReadBack p idealOS s path chunks buffer
            = some ⟨(getFileSize p idealOS u (some r)).ret,
                (readFileChunk p idealOS (getFileSize p idealOS u (some r)).state (some r) buffer
                  chunks.flatten.length).ret,
                (readFileChunk p idealOS (getFileSize p idealOS u (some r)).state (some r) buffer
                  chunks.flatten.length).buffer⟩ := by
  have hcr := createFileForWriting_ideal p s hpath
  have hs1 : ((s.setContent path []).addStream ⟨path, 0, false, true⟩).state.stream
      (some s.streams.length) = some ⟨path, ([] : List Byte).length, false, true⟩ :=
    FS.stream_addStream (s.setContent path []) _
  have hc1 : ((s.setContent path []).addStream ⟨path, 0, false, true⟩).state.content path
      = some [] := by
    rw [FS.content_addStream, FS.content_setContent_same]
  obtain ⟨t, ht, hts, htc, _⟩ := writeChunks_append p s.streams.length path chunks hsize _ [] hs1 hc1
  simp only [List.nil_append] at hts htc
  have hcl := closeFile_ideal p hts
  have hc2 : (t.setStream s.streams.length none).content path = some chunks.flatten := htc
  have hop := openFileForReading_ideal p (t.setStream s.streams.length none) hpath hc2
  refine ⟨((t.setStream s.streams.length none).addStream ⟨path, 0, true, false⟩).state,
    (t.setStream s.streams.length none).streams.length, FS.stream_addStream _ _, ?_, ?_⟩
  · rw [FS.content_addStream]
    exact hc2
  · simp only [writeThenReadBack, hcr, FS.ret_addStream, FS.length_setContent, ht, hcl, hop,
      if_true]

/-- The round trip in the stdio variants. -/
theorem writeThenReadBack_stdio {p : Platform} (hp : p.isWin32 = false) (s : FS) (path : Path)
    (chunks : List (List Byte)) (buffer : List Byte) (hpath : path ≠ []) :
    writeThenReadBack p idealOS s path chunks buffer
      = some ⟨if chunks.flatten.length ≤ LONG_MAX then (chunks.flatten.length : Int) else -1,
          true, store buffer chunks.flatten⟩ := by
  obtain ⟨u, r, hs, hc, heq⟩ :=
    writeThenReadBack_eq p s path chunks buffer hpath (fun h => by simp [hp] at h)
  have hg := getFileSize_stdio_open hp hs hc
  have hs2 : (u.setStream r (some ⟨path, 0, true, false⟩)).stream (some r)
      = some ⟨path, 0, true, false⟩ := FS.stream_setStream_same u r _ (FS.lt_of_stream hs)
  have hc2 : (u.setStream r (some ⟨path, 0, true, false⟩)).content path
      = some chunks.flatten := hc
  have hrd := readFileChunk_whole p buffer hs2 hc2 (fun h => by simp [hp] at h)
  rw [heq, hg]
  simp only [hrd.1, hrd.2]

/-- The round trip in the Windows variant, for fewer than `2^32` bytes. -/
theorem writeThenReadBack_win32 (s : FS) (path : Path) (chunks : List (List Byte))
    (buffer : List Byte) (hpath : path ≠ [])
    (hsize : ∀ c ∈ chunks, c.length < 2 ^ 32) (hN : chunks.flatten.length < 2 ^ 32) :
    writeThenReadBack .win32 idealOS s path chunks buffer
      = some ⟨if chunks.flatten.length = 0xFFFFFFFF then -1 else (chunks.flatten.length : Int),
          true, store buffer chunks.flatten⟩ := by
  obtain ⟨u, r, hs, hc, heq⟩ :=
    writeThenReadBack_eq .win32 s path chunks buffer hpath (fun _ => hsize)
  have hg := getFileSize_win32_open hs hc hN
  have hrd := readFileChunk_whole .win32 buffer hs hc (fun _ => hN)
  rw [heq, hg]
  simp only [hrd.1, hrd.2]

theorem length_le_flatten_length {c : List Byte} {chunks : List (List Byte)} (hc : c ∈ chunks) :
    c.length ≤ chunks.flatten.length := by
  induction chunks with
  | nil => cases hc
  | cons d ds ih =>
    rw [List.flatten_cons, List.length_append]
    rcases List.mem_cons.mp hc with rfl | hmem
    · omega
    · have := ih hmem
      omega

theorem store_of_length_eq (buffer data : List Byte) (h : buffer.length = data.length) :
    store buffer data = data := by
  simp [store, h]

theorem writeThenReadBack_win32_single (B : List Byte) (hB : B.length = 2 ^ 32 - 1) :
    writeThenReadBack .win32 idealOS FS.empty [1] [B] B = some ⟨-1, true, B⟩ := by
  have hfl : [B].flatten = B := by simp
  have hlt : B.length < 2 ^ 32 := by omega
  have h := writeThenReadBack_win32 FS.empty [1] [B] B (by decide)
    (fun c hc => by rw [List.mem_singleton.mp hc]; exact hlt) (by rw [hfl]; exact hlt)
  rw [hfl] at h
  rw [h, store_of_length_eq B B rfl, if_pos (by omega)]

/-- C4 (counterexample): in the Windows variant a file of `2^32 - 1` bytes,
written in one chunk that succeeds, is read back whole, but `getFileSize`
returns -1 and not `2^32 - 1`. -/
theorem writeThenReadBack_win32_size_lost :
    (List.replicate (2 ^ 32 - 1) (0 : Byte)).length = 2 ^ 32 - 1
      ∧ writeThenReadBack .win32 idealOS FS.empty [1] [List.replicate (2 ^ 32 - 1) 0]
          (List.replicate (2 ^ 32 - 1) 0)
          = some ⟨-1, true, List.replicate (2 ^ 32 - 1) 0⟩
      ∧ writeThenReadBack .win32 idealOS FS.empty [1] [List.replicate (2 ^ 32 - 1) 0]
          (List.replicate (2 ^ 32 - 1) 0)
          ≠ some ⟨((2 ^ 32 - 1 : Nat) : Int), true, List.replicate (2 ^ 32 - 1) 0⟩ := by
  have hlen : (List.replicate (2 ^ 32 - 1) (0 : Byte)).length = 2 ^ 32 - 1 :=
    List.length_replicate _ _
  refine ⟨hlen, writeThenReadBack_win32_single _ hlen, ?_⟩
  rw [writeThenReadBack_win32_single _ hlen]
  intro h
  have hsize := (ReadBack.mk.inj (Option.some.inj h)).1
  omega

/-- C4 (amended): over the file system, for every file name that is not
empty, every split of `N` bytes into chunks and every buffer of `N` bytes,
where `N ≤ LONG_MAX` in the stdio variants and `N < 2^32 - 1` in the Windows
variant, the round trip succeeds: every handle is valid, every write returns
`true`, `closeFile` returns `true`, `getFileSize` returns `N`, and
`readFileChunk` of `N` bytes returns `true` and leaves the written bytes in
the buffer. -/
theorem writeThenReadBack_roundTrip (p : Platform) (s : FS) (path : Path)
    (chunks : List (List Byte)) (buffer : List Byte)
    (hpath : path ≠ [])
    (hbuf : buffer.length = chunks.flatten.length)
    (hstdio : p.isWin32 = false → chunks.flatten.length ≤ LONG_MAX)
    (hwin : p.isWin32 = true → chunks.flatten.length < 2 ^ 32 - 1) :
    writeThenReadBack p idealOS s path chunks buffer
      = some ⟨(chunks.flatten.length : Int), true, chunks.flatten⟩ := by
  cases hp : p.isWin32
  · rw [writeThenReadBack_stdio hp s path chunks buffer hpath, if_pos (hstdio hp),
      store_of_length_eq _ _ hbuf]
  · have hw : p = .win32 := by
      cases p <;> simp_all [Platform.isWin32]
    subst hw
    have hN := hwin hp
    have hlt : chunks.flatten.length < 2 ^ 32 := by omega
    rw [writeThenReadBack_win32 s path chunks buffer hpath
        (fun c hc => lt_of_le_of_lt (length_le_flatten_length hc) hlt) hlt,
      if_neg (by omega), store_of_length_eq _ _ hbuf]

/-- C4 (witness): the bytes `1, 2, 3`, written as the chunks `1, 2` and `3`,
make the round trip in a stdio variant and in the Windows variant. -/
theorem writeThenReadBack_roundTrip_witness :
    writeThenReadBack .other idealOS FS.empty [1] [[1, 2], [3]] [0, 0, 0]
        = some ⟨(([[1, 2], [3]] : List (List Byte)).flatten.length : Int), true,
            ([[1, 2], [3]] : List (List Byte)).flatten⟩
      ∧ writeThenReadBack .win32 idealOS FS.empty [1] [[1, 2], [3]] [0, 0, 0]
        = some ⟨(([[1, 2], [3]] : List (List Byte)).flatten.length : Int), true,
            ([[1, 2], [3]] : List (List Byte)).flatten⟩ :=
  ⟨writeThenReadBack_roundTrip .other FS.empty [1] [[1, 2], [3]] [0, 0, 0] (by decide)
      (by decide) (by decide) (by decide),
    writeThenReadBack_roundTrip .win32 FS.empty [1] [[1, 2], [3]] [0, 0, 0] (by decide)
      (by decide) (by decide) (by decide)⟩

/-! ## `writeFileChunk` and the number of bytes written -/

/-- In the stdio variants, over every operating system, `writeFileChunk`
returns `true` only if `fwrite` reports `chunk_size` bytes written. -/
theorem writeFileChunk_stdio_exact {σ : Type} (p : Platform) (hp : p.isWin32 = false)
    (os : OS σ) (s : σ) (target_file : FILE_HANDLE) (chunk : List Byte) (chunk_size : Nat)
    (hret : (writeFileChunk p os s target_file chunk chunk_size).ret = true) :
    writeTransferred p os s target_file chunk chunk_size = chunk_size := by
  simpa [writeFileChunk, writeTransferred, hp] using hret

theorem writeFileChunk_win32_wrapped (chunk : List Byte) :
    (writeFileChunk .win32 idealOS createdOnWindows (some 0) chunk (2 ^ 32)).ret = true
      ∧ writeTransferred .win32 idealOS createdOnWindows (some 0) chunk (2 ^ 32) = 0
      ∧ (writeFileChunk .win32 idealOS createdOnWindows (some 0) chunk (2 ^ 32)).state.content [1]
          = some [] := by
  have hd : toDWORD (2 ^ 32) = 0 := by
    unfold toDWORD
    norm_num
  simp only [writeFileChunk, writeTransferred, Platform.isWin32, if_true, idealOS,
    FS.WriteFile, hd, List.take_zero]
  decide

/-- C3 (the code at the failing input): in the Windows variant, on a freshly
created file, `writeFileChunk` of a chunk of `2^32` bytes with
`chunk_size = 2^32` returns `true`, although `WriteFile` was asked for
`(DWORD)chunk_size = 0` bytes, wrote 0 bytes, and the file stays empty. -/
theorem writeFileChunk_win32_reports_unwritten_chunk :
    (List.replicate (2 ^ 32) (0 : Byte)).length = 2 ^ 32
      ∧ (writeFileChunk .win32 idealOS createdOnWindows (some 0) (List.replicate (2 ^ 32) 0)
          (2 ^ 32)).ret = true
      ∧ writeTransferred .win32 idealOS createdOnWindows (some 0) (List.replicate (2 ^ 32) 0)
          (2 ^ 32) = 0
      ∧ (writeFileChunk .win32 idealOS createdOnWindows (some 0) (List.replicate (2 ^ 32) 0)
          (2 ^ 32)).state.content [1] = some [] :=
  ⟨List.length_replicate _ _, writeFileChunk_win32_wrapped _⟩

end Nuitka
